import Mathlib

/-!
# Verification of the MELI-SYSTEM streaming audio engine

A shallow embedding of the live-comms audio pipeline of
`src/components/LiveComms.tsx`: the playback scheduler driven by the
`onmessage` callback, the interruption (barge-in) flush, the `cleanup`
teardown, the `toggleConnection` entry point, the `onclose`/`onerror`
handlers, the best-effort capture send in `onaudioprocess`, and the
active-source selection of the visualizer `render` loop.  Times are
modelled as rationals (the playback clock `AudioContext.currentTime`),
frequency-bin bytes as naturals in `[0, 255]`.

The PCM codec (`createPcmBlob` / `decodeAudio` / `decodeAudioData`) lives
in `services/geminiUtils`, which is not part of the sources; it is
modelled from the specification's description (clamp to `[-1, 1]`, scale
to the signed 16-bit range, write little-endian; decoding reconstitutes
the samples and fails on an odd byte length).
-/

namespace MeliSystem

/-- A playback segment tracked in the live set `sourcesRef.current`:
an `AudioBufferSourceNode` with the start time it was scheduled at,
its buffer duration, and whether `stop()` has been called on it. -/
structure Source where
  id : Nat
  startTime : ℚ
  duration : ℚ
  stopped : Bool
deriving Repr, DecidableEq

/-- The playback scheduler's mutable state: `nextStartTimeRef.current`
and the live set `sourcesRef.current` (kept as a list in arrival order;
the source uses a `Set`, to which nodes are only ever added once). -/
structure SchedState where
  nextStartTime : ℚ
  sources : List Source
deriving Repr, DecidableEq

/-- The audio branch of the `onmessage` handler (lines 516-547):
catch-up (`if (nextStartTimeRef.current < currentTime) nextStartTimeRef.current = currentTime`),
schedule the segment at the cursor (`source.start(nextStartTimeRef.current)`),
advance the cursor by the buffer duration, and add the node to the live set. -/
def enqueue (clock dur : ℚ) (id : Nat) (s : SchedState) : SchedState :=
  let cursor := if s.nextStartTime < clock then clock else s.nextStartTime
  { nextStartTime := cursor + dur
    sources := s.sources ++ [⟨id, cursor, dur, false⟩] }

/-- A server message as seen by `onmessage`: the
`serverContent.interrupted` flag and the optional base64 audio payload,
kept here as the decoded raw bytes of the 16-bit PCM payload. -/
structure ServerMsg where
  interrupted : Bool
  audioBytes : Option (List Nat)
deriving Repr, DecidableEq

/-- Duration of the decoded 24 kHz mono buffer built from a raw byte
payload: two bytes per 16-bit sample, `samples / 24000` seconds. -/
def bufferDuration (bytes : List Nat) : ℚ :=
  ((bytes.length : ℚ) / 2) / 24000

/-- The `onmessage` handler (lines 505-547).  Returns the new scheduler
state together with the disposition of the previously live sources: on
an interruption every tracked source receives `stop()` (inside a
`try`/`catch`) and the set is cleared with the cursor reset to `0`,
before an early `return` that skips the audio branch entirely.
Otherwise an audio payload is enqueued when the output context exists
(`if (!ctx) return`), and the live sources are untouched. -/
def onmessage (msg : ServerMsg) (clock : ℚ) (outputCtx : Bool) (id : Nat)
    (s : SchedState) : SchedState × List Source :=
  if msg.interrupted then
    (⟨0, []⟩, s.sources.map fun src => { src with stopped := true })
  else
    match msg.audioBytes with
    | none => (s, s.sources)
    | some bytes =>
      if outputCtx then (enqueue clock (bufferDuration bytes) id s, s.sources)
      else (s, s.sources)

/-- The expected back-to-back start times: the first segment at `t`,
each following segment at the previous start plus its duration. -/
def scheduleStarts (t : ℚ) : List ℚ → List ℚ
  | [] => []
  | d :: ds => t :: scheduleStarts (t + d) ds

/-- Enqueue a burst of segments of the given durations, all arriving at
playback-clock time `t` with consecutive ids. -/
def runBurst (t : ℚ) (durs : List ℚ) (id : Nat) (s : SchedState) : SchedState :=
  match durs with
  | [] => s
  | d :: ds => runBurst t ds (id + 1) (enqueue t d id s)

theorem enqueue_no_catchup (clock dur : ℚ) (id : Nat) (s : SchedState)
    (h : clock ≤ s.nextStartTime) :
    enqueue clock dur id s =
      { nextStartTime := s.nextStartTime + dur
        sources := s.sources ++ [⟨id, s.nextStartTime, dur, false⟩] } := by
  simp [enqueue, not_lt.mpr h]

/-- When the stream stays ahead of the clock (`t ≤` cursor), a burst of
enqueues appends segments starting back-to-back from the cursor. -/
theorem runBurst_starts (t : ℚ) (durs : List ℚ) (id : Nat) (s : SchedState)
    (hc : t ≤ s.nextStartTime) (hd : ∀ d ∈ durs, 0 ≤ d) :
    (runBurst t durs id s).sources.map Source.startTime =
        s.sources.map Source.startTime ++ scheduleStarts s.nextStartTime durs ∧
      (runBurst t durs id s).nextStartTime = s.nextStartTime + durs.sum := by
  induction durs generalizing id s with
  | nil => simp [runBurst, scheduleStarts]
  | cons d ds ih =>
    have hd0 : 0 ≤ d := hd d (List.mem_cons_self d ds)
    have hc' : t ≤ (enqueue t d id s).nextStartTime := by
      rw [enqueue_no_catchup t d id s hc]
      exact le_trans hc (le_add_of_nonneg_right hd0)
    have h := ih (id + 1) (enqueue t d id s) hc'
        (fun x hx => hd x (List.mem_cons_of_mem d hx))
    rw [enqueue_no_catchup t d id s hc] at h
    simp only [runBurst, enqueue_no_catchup t d id s hc]
    constructor
    · rw [h.1]
      simp [scheduleStarts]
    · rw [h.2]
      simp [List.sum_cons]
      ring

theorem enqueue_catchup (clock dur : ℚ) (id : Nat) (s : SchedState)
    (h : s.nextStartTime ≤ clock) :
    enqueue clock dur id s =
      { nextStartTime := clock + dur
        sources := s.sources ++ [⟨id, clock, dur, false⟩] } := by
  rcases lt_or_eq_of_le h with h' | h'
  · simp [enqueue, h']
  · simp [enqueue, h', lt_irrefl]

/-- Claim C1: segments enqueued in one burst at clock time `t` (no
interruption) start back-to-back in arrival order at `t` plus the prefix
sums of the durations, and the schedule cursor ends at `t` plus the total
duration. -/
theorem gapless_burst_schedule (t d : ℚ) (ds : List ℚ) (id : Nat) (s : SchedState)
    (hc : s.nextStartTime ≤ t) (hd : 0 ≤ d) (hds : ∀ x ∈ ds, 0 ≤ x) :
    (runBurst t (d :: ds) id s).sources.map Source.startTime =
        s.sources.map Source.startTime ++ scheduleStarts t (d :: ds) ∧
      (runBurst t (d :: ds) id s).nextStartTime = t + (d :: ds).sum := by
  have h1 := enqueue_catchup t d id s hc
  have hc' : t ≤ (enqueue t d id s).nextStartTime := by
    rw [h1]
    exact le_add_of_nonneg_right hd
  have h2 := runBurst_starts t ds (id + 1) (enqueue t d id s) hc' hds
  have hrun : runBurst t (d :: ds) id s = runBurst t ds (id + 1) (enqueue t d id s) := rfl
  rw [hrun, h1]
  rw [h1] at h2
  constructor
  · rw [h2.1]
    simp [scheduleStarts]
  · rw [h2.2]
    simp [List.sum_cons]
    ring

/-- Witness for C1: three segments of durations 1, 1/2 and 2 seconds
enqueued at clock time 0 start at 0, 1, 3/2 and the cursor ends at 7/2. -/
theorem gapless_burst_schedule_witness :
    (runBurst 0 [1, 1/2, 2] 0 ⟨0, []⟩).sources.map Source.startTime = [0, 1, 3/2] ∧
      (runBurst 0 [1, 1/2, 2] 0 ⟨0, []⟩).nextStartTime = 7/2 := by
  have h := gapless_burst_schedule 0 1 [1/2, 2] 0 ⟨0, []⟩ (le_refl 0) (by norm_num)
    (by intro x hx; fin_cases hx <;> norm_num)
  refine ⟨?_, ?_⟩
  · rw [h.1]
    norm_num [scheduleStarts]
  · rw [h.2]
    norm_num

/-- A sample live set: two sources scheduled back-to-back. -/
def demoSources : List Source := [⟨0, 0, 1, false⟩, ⟨1, 1, 5/2, false⟩]

/-- Claim C2: on a remote interruption signal every tracked segment is
stopped regardless of its playback position, the live set is cleared, the
cursor is reset to zero, and the next enqueue recomputes its start from
the current clock time via the catch-up rule. -/
theorem interruption_flush (msg : ServerMsg) (clock t dur : ℚ) (ctx : Bool)
    (id id' : Nat) (s : SchedState)
    (hmsg : msg.interrupted = true) (ht : 0 ≤ t) :
    (onmessage msg clock ctx id s).1.sources = [] ∧
      (onmessage msg clock ctx id s).1.nextStartTime = 0 ∧
      (onmessage msg clock ctx id s).2 =
        s.sources.map (fun src => { src with stopped := true }) ∧
      (∀ src ∈ (onmessage msg clock ctx id s).2, src.stopped = true) ∧
      (enqueue t dur id' (onmessage msg clock ctx id s).1).sources.map
          Source.startTime = [t] := by
  have hflush : onmessage msg clock ctx id s =
      (⟨0, []⟩, s.sources.map fun src => { src with stopped := true }) := by
    simp [onmessage, hmsg]
  rw [hflush]
  refine ⟨rfl, rfl, rfl, ?_, ?_⟩
  · intro src hsrc
    rw [List.mem_map] at hsrc
    obtain ⟨a, -, ha⟩ := hsrc
    rw [← ha]
  · rw [enqueue_catchup t dur id' ⟨0, []⟩ ht]
    rfl

/-- Witness for C2: a concrete interruption at clock time 2 over two live
sources, followed by an enqueue at clock time 5 that starts at 5. -/
theorem interruption_flush_witness :
    (onmessage ⟨true, some [1, 2]⟩ 2 true 2 ⟨7/2, demoSources⟩).1.sources = [] ∧
      (onmessage ⟨true, some [1, 2]⟩ 2 true 2 ⟨7/2, demoSources⟩).1.nextStartTime = 0 ∧
      (onmessage ⟨true, some [1, 2]⟩ 2 true 2 ⟨7/2, demoSources⟩).2 =
        (SchedState.mk (7/2) demoSources).sources.map
          (fun src => { src with stopped := true }) ∧
      (∀ src ∈ (onmessage ⟨true, some [1, 2]⟩ 2 true 2 ⟨7/2, demoSources⟩).2,
        src.stopped = true) ∧
      (enqueue 5 1 3 (onmessage ⟨true, some [1, 2]⟩ 2 true 2
          ⟨7/2, demoSources⟩).1).sources.map Source.startTime = [5] :=
  interruption_flush ⟨true, some [1, 2]⟩ 2 5 1 true 2 3 ⟨7/2, demoSources⟩ rfl
    (by norm_num)

/-- Claim C10: a message carrying both the interrupted flag and an audio
payload performs only the interruption flush — the result is identical to
an interruption without any payload, nothing is added to the live set, and
the cursor is reset rather than advanced by the payload's duration. -/
theorem interrupted_overrides_audio (bytes : List Nat) (clock : ℚ) (ctx : Bool)
    (id : Nat) (s : SchedState) :
    onmessage ⟨true, some bytes⟩ clock ctx id s =
        onmessage ⟨true, none⟩ clock ctx id s ∧
      (onmessage ⟨true, some bytes⟩ clock ctx id s).1.sources = [] ∧
      (onmessage ⟨true, some bytes⟩ clock ctx id s).1.nextStartTime = 0 := by
  simp [onmessage]

/-- Counterexample to claim C4: an interruption arriving at playback-clock
time 5 resets the cursor to 0, which is not the current clock time. -/
theorem cursor_reset_to_zero_not_clock :
    (onmessage ⟨true, none⟩ 5 true 0 ⟨7/2, []⟩).1.nextStartTime = 0 ∧
      (0 : ℚ) ≠ 5 := by
  exact ⟨by simp [onmessage], by norm_num⟩

/-- Claim C4 (amended): at every point where a segment is scheduled the
cursor is at least the current clock time — the newly scheduled segment
starts no earlier than the clock, and the advanced cursor stays at or
above the clock — while an interruption resets the cursor to zero, the
next enqueue catching back up to the current clock time. -/
theorem cursor_clock_invariant (clock dur : ℚ) (id : Nat) (s : SchedState)
    (msg : ServerMsg) (hdur : 0 ≤ dur) (hmsg : msg.interrupted = true) :
    (∀ src ∈ (enqueue clock dur id s).sources,
        src ∈ s.sources ∨ clock ≤ src.startTime) ∧
      clock ≤ (enqueue clock dur id s).nextStartTime ∧
      (onmessage msg clock true id s).1.nextStartTime = 0 := by
  refine ⟨?_, ?_, by simp [onmessage, hmsg]⟩
  · intro src hsrc
    simp only [enqueue, List.mem_append, List.mem_singleton] at hsrc
    rcases hsrc with h | h
    · exact Or.inl h
    · right
      rw [h]
      by_cases hlt : s.nextStartTime < clock
      · simp [hlt]
      · simp only [hlt, if_neg, if_false]
        exact le_of_not_lt hlt
  · simp only [enqueue]
    by_cases hlt : s.nextStartTime < clock
    · simp only [hlt, if_pos]
      linarith
    · simp only [hlt, if_neg, if_false]
      have := le_of_not_lt hlt
      linarith

/-- Witness for the amended C4: a concrete enqueue at clock time 2 against
cursor 7/2, and an interruption resetting the cursor to zero. -/
theorem cursor_clock_invariant_witness :
    (∀ src ∈ (enqueue 2 1 0 ⟨7/2, demoSources⟩).sources,
        src ∈ (SchedState.mk (7/2) demoSources).sources ∨ (2 : ℚ) ≤ src.startTime) ∧
      (2 : ℚ) ≤ (enqueue 2 1 0 ⟨7/2, demoSources⟩).nextStartTime ∧
      (onmessage ⟨true, none⟩ 2 true 0 ⟨7/2, demoSources⟩).1.nextStartTime = 0 :=
  cursor_clock_invariant 2 1 0 ⟨7/2, demoSources⟩ ⟨true, none⟩ (by norm_num) rfl

/-- The five presentation-facing network-quality values. -/
inductive SignalState
  | OFFLINE
  | SEARCHING
  | WEAK
  | STABLE
  | OPTIMAL
deriving Repr, DecidableEq

/-- The component's mutable refs and state hooks, as one record: the
booleans record whether the corresponding ref currently holds a handle
(`null` checks in the source are tests on these). -/
structure CommsState where
  connected : Bool
  micActive : Bool
  signalQuality : SignalState
  sessionPromise : Bool
  inputContext : Bool
  outputContext : Bool
  nextStartTime : ℚ
  sources : List Source
  stream : Bool
  inputAnalyser : Bool
  outputAnalyser : Bool
  animationFramePending : Bool
deriving Repr, DecidableEq

/-- The `cleanup` function (lines 77-113): cancel any pending animation
frame, stop every tracked source inside `try`/`catch`, clear the live set,
close both audio contexts (each behind a null guard), stop the microphone
tracks, null out the session promise, contexts, stream and analysers, and
reset the UI state.  `nextStartTimeRef` is not touched by `cleanup`; it is
reset at the start of the next connect attempt (line 479) and on
interruption (line 512). -/
def cleanup (s : CommsState) : CommsState :=
  { connected := false
    micActive := false
    signalQuality := .OFFLINE
    sessionPromise := false
    inputContext := false
    outputContext := false
    nextStartTime := s.nextStartTime
    sources := []
    stream := false
    inputAnalyser := false
    outputAnalyser := false
    animationFramePending := false }

/-- `source.stop()` without a guard: a node that was already stopped
raises `InvalidStateError`. -/
def stopSourceE (src : Source) : Except Unit Source :=
  if src.stopped then .error () else .ok { src with stopped := true }

/-- `try { source.stop(); } catch (e) {}` — the per-source guard used by
both `cleanup` and the interruption branch. -/
def stopSourceCaught (src : Source) : Source :=
  match stopSourceE src with
  | .ok s => s
  | .error _ => src

/-- `context.close()` without a guard: closing an absent context would
fail; `cleanup` only calls it behind an `if (ref.current)` test. -/
def closeContextE (present : Bool) : Except Unit Bool :=
  if present then .ok false else .error ()

/-- The effectful reading of `cleanup`: every release step is behind its
own guard (the `if` null checks and the per-source `try`/`catch`), so the
whole teardown is built from steps that cannot fail. -/
def cleanupE (s : CommsState) : Except Unit CommsState := do
  let stopped := s.sources.map stopSourceCaught
  let inCtx ← if s.inputContext then closeContextE s.inputContext
    else pure s.inputContext
  let outCtx ← if s.outputContext then closeContextE s.outputContext
    else pure s.outputContext
  let streamLeft := if s.stream then false else s.stream
  let _ := stopped
  return { connected := false
           micActive := false
           signalQuality := .OFFLINE
           sessionPromise := false
           inputContext := inCtx
           outputContext := outCtx
           nextStartTime := s.nextStartTime
           sources := []
           stream := streamLeft
           inputAnalyser := false
           outputAnalyser := false
           animationFramePending := false }

/-- The `onclose` callback (lines 549-553): flips the connection flag and
the signal quality and logs; no resource is released. -/
def handleClose (s : CommsState) : CommsState :=
  { s with connected := false, signalQuality := .OFFLINE }

/-- The `onerror` callback (lines 554-559): logs the error, flips the
connection flag and the signal quality; no resource is released. -/
def handleError (s : CommsState) : CommsState :=
  { s with connected := false, signalQuality := .OFFLINE }

/-- What a call to the single connection entry point decided to do. -/
inductive ToggleAction
  | disconnect
  | connectAttempt
deriving Repr, DecidableEq

/-- The guard of `toggleConnection` (lines 432-437): when `connected` is
true the call runs `cleanup()` and returns; otherwise it proceeds into
the (asynchronous, externally-effectful) connect sequence, which is not
modelled beyond the decision itself. -/
def toggleConnection (s : CommsState) : CommsState × ToggleAction :=
  if s.connected then (cleanup s, .disconnect) else (s, .connectAttempt)

/-- A concrete fully-resourced ACTIVE session state. -/
def activeDemo : CommsState :=
  { connected := true
    micActive := true
    signalQuality := .OPTIMAL
    sessionPromise := true
    inputContext := true
    outputContext := true
    nextStartTime := 7/2
    sources := demoSources
    stream := true
    inputAnalyser := true
    outputAnalyser := true
    animationFramePending := true }

/-- Counterexample to claim C3: after a remote close (or a stream error)
on a fully-resourced active session, the microphone stream, the input
context and the scheduled segments are still held — the full-teardown
path did not execute. -/
theorem remote_close_keeps_resources :
    (handleClose activeDemo).stream = true ∧
      (handleClose activeDemo).sources ≠ [] ∧
      (handleClose activeDemo).inputContext = true ∧
      (handleError activeDemo).stream = true ∧
      handleClose activeDemo ≠ cleanup activeDemo := by
  refine ⟨rfl, ?_, rfl, rfl, ?_⟩
  · simp [handleClose, activeDemo, demoSources]
  · intro h
    have hs := congrArg CommsState.stream h
    simp [handleClose, cleanup, activeDemo] at hs

/-- Claim C3 (amended): only the explicit-disconnect path (and the
handshake-failure catch) execute the full `cleanup`; the `onclose` and
`onerror` handlers merely reset the connection flag and the signal
quality, leaving the audio contexts, microphone stream and scheduled
segments in place until the next explicit disconnect or unmount. -/
theorem session_end_paths (s : CommsState) (h : s.connected = true) :
    (toggleConnection s).1 = cleanup s ∧
      (toggleConnection s).2 = ToggleAction.disconnect ∧
      handleClose s = { s with connected := false, signalQuality := .OFFLINE } ∧
      handleError s = { s with connected := false, signalQuality := .OFFLINE } ∧
      (handleClose s).stream = s.stream ∧
      (handleClose s).sources = s.sources ∧
      (handleError s).inputContext = s.inputContext := by
  simp [toggleConnection, h, handleClose, handleError]

/-- Witness for the amended C3 at the concrete active state. -/
theorem session_end_paths_witness :
    (toggleConnection activeDemo).1 = cleanup activeDemo ∧
      (toggleConnection activeDemo).2 = ToggleAction.disconnect ∧
      handleClose activeDemo =
        { activeDemo with connected := false, signalQuality := .OFFLINE } ∧
      handleError activeDemo =
        { activeDemo with connected := false, signalQuality := .OFFLINE } ∧
      (handleClose activeDemo).stream = activeDemo.stream ∧
      (handleClose activeDemo).sources = activeDemo.sources ∧
      (handleError activeDemo).inputContext = activeDemo.inputContext :=
  session_end_paths activeDemo rfl

/-- Counterexample to claim C5: invoking the single connection entry
point while ACTIVE is not a no-op — the session promise is dropped, the
microphone stream is released, and the state changes. -/
theorem toggle_while_active_tears_down :
    (toggleConnection activeDemo).1.sessionPromise = false ∧
      (toggleConnection activeDemo).1.stream = false ∧
      (toggleConnection activeDemo).1 ≠ activeDemo := by
  refine ⟨rfl, rfl, ?_⟩
  intro h
  have hc := congrArg CommsState.connected h
  simp [toggleConnection, cleanup, activeDemo] at hc

/-- Claim C5 (amended): invoking the connection entry point while ACTIVE
creates no duplicate session — the connect sequence is not entered — but
it is not ignored either: the call acts as a disconnect and runs the full
cleanup path. -/
theorem toggle_while_active (s : CommsState) (h : s.connected = true) :
    toggleConnection s = (cleanup s, ToggleAction.disconnect) ∧
      (toggleConnection s).2 ≠ ToggleAction.connectAttempt := by
  constructor
  · simp [toggleConnection, h]
  · simp [toggleConnection, h]

/-- Witness for the amended C5 at the concrete active state. -/
theorem toggle_while_active_witness :
    toggleConnection activeDemo = (cleanup activeDemo, ToggleAction.disconnect) ∧
      (toggleConnection activeDemo).2 ≠ ToggleAction.connectAttempt :=
  toggle_while_active activeDemo rfl

/-- Counterexample to claim C8: `cleanup` does not reset the schedule
cursor — tearing down a state whose cursor is 7/2 leaves the cursor at
7/2, not at its empty value 0. -/
theorem cleanup_preserves_cursor :
    (cleanup activeDemo).nextStartTime = 7/2 ∧ (7/2 : ℚ) ≠ 0 :=
  ⟨rfl, by norm_num⟩

/-- Claim C8 (amended): teardown is idempotent and total — every release
step is individually guarded, so the effectful reading always succeeds
and agrees with the pure one, and calling it twice is the same as once —
and afterwards the live set is empty and every resource ref is null; the
schedule cursor, however, is not reset by `cleanup`: it keeps its value
and is reset only on the next connect attempt and on interruption. -/
theorem cleanup_idempotent_total (s : CommsState) :
    cleanupE s = Except.ok (cleanup s) ∧
      cleanup (cleanup s) = cleanup s ∧
      (cleanup s).sources = [] ∧
      (cleanup s).sessionPromise = false ∧
      (cleanup s).inputContext = false ∧
      (cleanup s).outputContext = false ∧
      (cleanup s).stream = false ∧
      (cleanup s).inputAnalyser = false ∧
      (cleanup s).outputAnalyser = false ∧
      (cleanup s).animationFramePending = false ∧
      (cleanup s).nextStartTime = s.nextStartTime := by
  refine ⟨?_, rfl, rfl, rfl, rfl, rfl, rfl, rfl, rfl, rfl, rfl⟩
  cases hin : s.inputContext <;> cases hout : s.outputContext <;>
    simp [cleanupE, cleanup, closeContextE, hin, hout, Bind.bind, Except.bind,
      Pure.pure, Except.pure]

/-- Clamp a captured sample to `[-1, 1]`. -/
def clampSample (x : ℚ) : ℚ := max (-1) (min 1 x)

/-- Modelled from the spec: the encoding half of the PCM codec lives in
`services/geminiUtils`, which is not among the sources — each sample is
clamped to `[-1, 1]` and scaled to the signed 16-bit integer range. -/
def quantizeSample (x : ℚ) : ℤ := round (clampSample x * 32767)

/-- The little-endian byte pair of a 16-bit two's-complement value. -/
def toInt16Bytes (q : ℤ) : List Nat :=
  [(q % 65536).toNat % 256, (q % 65536).toNat / 256]

/-- Modelled from the spec: `createPcmBlob` — clamp each sample, scale it
to the signed 16-bit range and write it little-endian. -/
def createPcmBlob (frame : List ℚ) : List Nat :=
  frame.flatMap fun x => toInt16Bytes (quantizeSample x)

/-- Reassemble a little-endian byte pair into a signed 16-bit value. -/
def fromInt16Bytes (lo hi : Nat) : ℤ :=
  if (lo : ℤ) + 256 * hi < 32768 then (lo : ℤ) + 256 * hi
  else (lo : ℤ) + 256 * hi - 65536

/-- Modelled from the spec: the decoding path (`decodeAudio` plus
`decodeAudioData`) — reconstitute 16-bit little-endian samples into
normalized floats, failing (`DecodeError`) when the byte length is not a
multiple of 2.  The base64 leg of the transport is a bijection on byte
buffers and is not modelled. -/
def decodePcm : List Nat → Option (List ℚ)
  | [] => some []
  | [_] => none
  | lo :: hi :: rest =>
    (decodePcm rest).map fun ys => ((fromInt16Bytes lo hi : ℤ) : ℚ) / 32767 :: ys

theorem fromInt16_toInt16 (q : ℤ) (h1 : -32768 ≤ q) (h2 : q < 32768) :
    fromInt16Bytes ((q % 65536).toNat % 256) ((q % 65536).toNat / 256) = q := by
  have h3 : 0 ≤ q % 65536 := Int.emod_nonneg q (by norm_num)
  have h4 : q % 65536 < 65536 := Int.emod_lt_of_pos q (by norm_num)
  unfold fromInt16Bytes
  split <;> omega

theorem quantizeSample_bounds (x : ℚ) :
    -32767 ≤ quantizeSample x ∧ quantizeSample x ≤ 32767 := by
  have hlo : (-1 : ℚ) ≤ clampSample x := le_max_left _ _
  have hhi : clampSample x ≤ 1 := max_le (by norm_num) (min_le_left _ _)
  have hmlo : (-32767 : ℚ) ≤ clampSample x * 32767 := by nlinarith
  have hmhi : clampSample x * 32767 ≤ 32767 := by nlinarith
  have hr := abs_sub_round (clampSample x * 32767)
  rw [abs_le] at hr
  constructor
  · have : (-32767 : ℚ) - 1/2 ≤ (round (clampSample x * 32767) : ℚ) := by linarith
    have h32 : ((-32768 : ℤ) : ℚ) < (round (clampSample x * 32767) : ℚ) := by
      push_cast
      linarith
    have := Int.cast_lt.mp h32
    unfold quantizeSample
    omega
  · have : (round (clampSample x * 32767) : ℚ) ≤ 32767 + 1/2 := by linarith
    have h32 : (round (clampSample x * 32767) : ℚ) < ((32768 : ℤ) : ℚ) := by
      push_cast
      linarith
    have := Int.cast_lt.mp h32
    unfold quantizeSample
    omega

theorem decode_quantize_close (x : ℚ) (h1 : -1 ≤ x) (h2 : x ≤ 1) :
    |((quantizeSample x : ℤ) : ℚ) / 32767 - x| ≤ 1 / 65534 := by
  have hclamp : clampSample x = x := by
    unfold clampSample
    rw [min_eq_right h2, max_eq_right h1]
  unfold quantizeSample
  rw [hclamp]
  have hr : |(round (x * 32767) : ℚ) - x * 32767| ≤ 1 / 2 := by
    rw [abs_sub_comm]
    exact abs_sub_round _
  have heq : ((round (x * 32767) : ℤ) : ℚ) / 32767 - x =
      (((round (x * 32767) : ℤ) : ℚ) - x * 32767) / 32767 := by ring
  rw [heq, abs_div]
  have h32 : |(32767 : ℚ)| = 32767 := by norm_num
  rw [h32]
  rw [div_le_div_iff₀ (by norm_num) (by norm_num)]
  nlinarith [hr]

/-- Claim C6: for every frame of samples in `[-1, 1]`, decoding the
little-endian 16-bit encoding succeeds and returns the frame back
elementwise within the 16-bit quantization error. -/
theorem pcm_roundtrip (frame : List ℚ) (h : ∀ x ∈ frame, -1 ≤ x ∧ x ≤ 1) :
    ∃ out, decodePcm (createPcmBlob frame) = some out ∧
      List.Forall₂ (fun y x => |y - x| ≤ 1 / 65534) out frame := by
  induction frame with
  | nil => exact ⟨[], rfl, List.Forall₂.nil⟩
  | cons x xs ih =>
    obtain ⟨out, hout, hfa⟩ := ih fun y hy => h y (List.mem_cons_of_mem x hy)
    have hx := h x (List.mem_cons_self x xs)
    have hb := quantizeSample_bounds x
    refine ⟨((quantizeSample x : ℤ) : ℚ) / 32767 :: out, ?_, ?_⟩
    · have hcreate : createPcmBlob (x :: xs) =
          (quantizeSample x % 65536).toNat % 256 ::
            (quantizeSample x % 65536).toNat / 256 :: createPcmBlob xs := by
        simp [createPcmBlob, toInt16Bytes]
      rw [hcreate]
      simp only [decodePcm, hout, Option.map_some']
      rw [fromInt16_toInt16 (quantizeSample x) (by omega) (by omega)]
    · exact List.Forall₂.cons (decode_quantize_close x hx.1 hx.2) hfa

/-- Witness for C6: the concrete frame `[0, 1/2, -1, 1]` round-trips
within the quantization error. -/
theorem pcm_roundtrip_witness :
    (∀ x ∈ [(0 : ℚ), 1/2, -1, 1], -1 ≤ x ∧ x ≤ 1) ∧
      ∃ out, decodePcm (createPcmBlob [(0 : ℚ), 1/2, -1, 1]) = some out ∧
        List.Forall₂ (fun y x => |y - x| ≤ 1 / 65534) out [(0 : ℚ), 1/2, -1, 1] := by
  have hmem : ∀ x ∈ [(0 : ℚ), 1/2, -1, 1], -1 ≤ x ∧ x ≤ 1 := by
    intro x hx
    fin_cases hx <;> constructor <;> norm_num
  exact ⟨hmem, pcm_roundtrip _ hmem⟩

/-- The fate of one captured frame. -/
inductive SendOutcome
  | sent
  | dropped
deriving Repr, DecidableEq

/-- The `onaudioprocess` callback (lines 492-500): encode the frame, then
`sessionPromiseRef.current?.then(session => session.sendRealtimeInput(...)).catch(() => {})`
— when the session ref is null the optional chaining drops the frame, and
a failed send is swallowed by the catch; nothing is queued or retried. -/
def onaudioprocess (session : Option (List Nat → Except Unit Unit))
    (frame : List ℚ) : SendOutcome :=
  match session with
  | none => .dropped
  | some send =>
    match send (createPcmBlob frame) with
    | .ok _ => .sent
    | .error _ => .dropped

/-- The capture loop: one `onaudioprocess` callback per produced frame,
with no state carried between frames. -/
def captureLoop (session : Option (List Nat → Except Unit Unit))
    (frames : List (List ℚ)) : List SendOutcome :=
  frames.map (onaudioprocess session)

/-- Claim C7: every captured frame is sent best-effort — with no session
the frame is dropped silently, a failing send is swallowed and the frame
dropped, and the capture loop still produces an outcome for every frame
(no crash, no queue, no retry). -/
theorem capture_best_effort (send : List Nat → Except Unit Unit)
    (session : Option (List Nat → Except Unit Unit))
    (frame : List ℚ) (frames : List (List ℚ))
    (hfail : send (createPcmBlob frame) = .error ()) :
    onaudioprocess (some send) frame = .dropped ∧
      onaudioprocess none frame = .dropped ∧
      (captureLoop session frames).length = frames.length := by
  refine ⟨?_, rfl, by simp [captureLoop]⟩
  simp [onaudioprocess, hfail]

/-- Witness for C7: a transport whose sends always fail drops the frame,
and the loop still processes both frames. -/
theorem capture_best_effort_witness :
    onaudioprocess (some (fun _ => Except.error ())) [0] = SendOutcome.dropped ∧
      onaudioprocess none [0] = SendOutcome.dropped ∧
      (captureLoop none [[0], [1/2]]).length = [[(0 : ℚ)], [1/2]].length :=
  capture_best_effort (fun _ => Except.error ()) none [0] [[0], [1/2]] rfl

/-- An `AnalyserNode` as observed by the render loop: the most recent
32-bin byte-frequency snapshot used for the level meters and the 256-bin
snapshot used for the main visualization. -/
structure Analyser where
  meterBins : List Nat
  fullBins : List Nat
deriving Repr, DecidableEq

/-- The meter level of one path (lines 151-173): mean of the 32 byte bins
normalized by 255, and `0` when the analyser ref is null. -/
def meterLevel (a : Option Analyser) : ℚ :=
  match a with
  | none => 0
  | some an => ((an.meterBins.sum : ℚ) / an.meterBins.length) / 255

/-- Active-source selection of the render loop (lines 176-183):
`isOutput = outputVol > 0.05`, `activeAnalyser = isOutput ? output : input`,
and the 256-bin snapshot is read from the active analyser or filled with
zeros when it is null. -/
def selectVisualizerData (inA outA : Option Analyser) : List Nat :=
  let active := if meterLevel outA > 1/20 then outA else inA
  match active with
  | some an => an.fullBins
  | none => List.replicate 256 0

/-- Claim C9: when the output level exceeds the 0.05 threshold the output
analyser's full-resolution snapshot is selected, otherwise the input
analyser's; a missing selected analyser yields the all-zero snapshot. -/
theorem active_source_selection (inA outA : Option Analyser) :
    ((1/20 : ℚ) < meterLevel outA →
        selectVisualizerData inA outA =
          (outA.map Analyser.fullBins).getD (List.replicate 256 0)) ∧
      (meterLevel outA ≤ 1/20 →
        selectVisualizerData inA outA =
          (inA.map Analyser.fullBins).getD (List.replicate 256 0)) := by
  constructor
  · intro h
    simp only [selectVisualizerData, if_pos h]
    cases outA <;> rfl
  · intro h
    simp only [selectVisualizerData, if_neg (not_lt.mpr h)]
    cases inA <;> rfl

/-- The output analyser of the scenario: meter level exactly 1/10. -/
def outDemoAnalyser : Analyser :=
  { meterBins := List.replicate 16 25 ++ List.replicate 16 26
    fullBins := List.replicate 256 200 }

/-- The input analyser of the scenario: meter level 1/51 (about 0.02). -/
def inDemoAnalyser : Analyser :=
  { meterBins := List.replicate 32 5
    fullBins := List.replicate 256 7 }

/-- Witness for C9: with output level 1/10 (above the threshold) and a
quiet input, the output analyser's 256-bin snapshot is selected. -/
theorem active_source_selection_witness :
    (1/20 : ℚ) < meterLevel (some outDemoAnalyser) ∧
      selectVisualizerData (some inDemoAnalyser) (some outDemoAnalyser) =
        outDemoAnalyser.fullBins := by
  have hlevel : meterLevel (some outDemoAnalyser) = 1/10 := by
    have hm : meterLevel (some outDemoAnalyser) =
        ((outDemoAnalyser.meterBins.sum : ℚ) /
          outDemoAnalyser.meterBins.length) / 255 := rfl
    have hb : outDemoAnalyser.meterBins =
        List.replicate 16 25 ++ List.replicate 16 26 := rfl
    rw [hm, hb, List.sum_append, List.length_append, List.sum_replicate,
      List.sum_replicate, List.length_replicate, List.length_replicate]
    norm_num [smul_eq_mul]
  have h10 : (1/20 : ℚ) < meterLevel (some outDemoAnalyser) := by
    rw [hlevel]
    norm_num
  refine ⟨h10, ?_⟩
  have hsel := (active_source_selection (some inDemoAnalyser)
    (some outDemoAnalyser)).1 h10
  rw [hsel]
  rfl

end MeliSystem
